import Mathlib

/-!
Shallow embedding of the RES_Checker core (resume / job-description
analysis engine) and verification of its specification claims.

Strings are modelled as Lean `String`s; all text handling works over the
underlying `List Char`.  JavaScript `Math.round` is modelled over `ℚ` as
`⌊x + 1/2⌋`.  Each definition mirrors one function of the TypeScript
source, keeping the source's name.
-/

namespace ResChecker

/-- Lowercase a string character-wise (model of JS `String.toLowerCase`
for the ASCII texts handled here). -/
def lower (s : String) : String := ⟨s.data.map Char.toLower⟩

/-- Is the first list a prefix of the second? -/
def prefixOf : List Char → List Char → Bool
  | [], _ => true
  | _ :: _, [] => false
  | a :: as, b :: bs => a == b && prefixOf as bs

/-- First index at which `needle` occurs as a contiguous run of `hay`
(model of JS `String.indexOf`, as `Option` instead of `-1`). -/
def firstIndexOf (needle hay : List Char) : Option Nat :=
  match hay with
  | [] => if prefixOf needle [] then some 0 else none
  | _ :: rest =>
    if prefixOf needle hay then some 0
    else (firstIndexOf needle rest).map (· + 1)

/-- `hay.includes needle` : substring containment test, model of JS
`String.includes`. -/
def includes (hay needle : String) : Bool :=
  (firstIndexOf needle.data hay.data).isSome

/-- Model of JS `Math.round` on a rational: round half-up. -/
def jsRound (q : ℚ) : ℤ := Int.floor (q + 1/2)

/-- Bidirectional case-insensitive containment between a resume skill and
a job skill, as written inline in `calculateMatchScore`,
`generateRecommendations` (job-description.service.ts) and
`getQuestionsBySkills` (interview-questions.ts). -/
def bidirMatch (a b : String) : Bool :=
  includes (lower a) (lower b) || includes (lower b) (lower a)

/-- `calculateMatchScore` from job-description.service.ts: 50 when no
required skills; otherwise 70 × required coverage plus 30 × preferred
coverage (full 30 when no preferred skills), rounded. -/
def calculateMatchScore
    (resumeSkills requiredSkills preferredSkills : List String) : ℤ :=
  if requiredSkills.length = 0 then 50
  else
    let matchedRequired :=
      (requiredSkills.filter (fun reqSkill =>
        resumeSkills.any (fun resSkill => bidirMatch resSkill reqSkill))).length
    let reqScore : ℚ := ((matchedRequired : ℚ) / (requiredSkills.length : ℚ)) * 70
    let prefScore : ℚ :=
      if preferredSkills.length = 0 then 30
      else
        let matchedPreferred :=
          (preferredSkills.filter (fun prefSkill =>
            resumeSkills.any (fun resSkill => bidirMatch resSkill prefSkill))).length
        ((matchedPreferred : ℚ) / (preferredSkills.length : ℚ)) * 30
    jsRound (reqScore + prefScore)

/-! ### Experience-years extraction

`extractExperience` (nlp.service.ts) applies three regular expressions in
order — `(\d+)\+?\s*years?`, `(\d+)\+?\s*yrs?`,
`(\d+)\s*-\s*(\d+)\s*years?` (all `/i`) — and returns the first capture
group of the first pattern that matches anywhere, else 0.  The matchers
below implement exactly these patterns: JS finds the leftmost match, so
candidate start positions are scanned left to right; `\d+` is viable only
as the maximal digit run (the following atom can never consume a digit),
`\+?` and `\s*` are likewise deterministic here. -/

/-- Whitespace class `\s` of the regexes (characters relevant to this
ASCII text domain). -/
def isWs (c : Char) : Bool := c = ' ' || c = '\t' || c = '\n' || c = '\r'

def isDigit (c : Char) : Bool := '0' ≤ c && c ≤ '9'

/-- Maximal digit run at the head, plus the rest. -/
def digitRun : List Char → List Char × List Char
  | [] => ([], [])
  | c :: cs =>
    if isDigit c then
      let (d, r) := digitRun cs
      (c :: d, r)
    else ([], c :: cs)

/-- JS `parseInt` on a non-empty decimal digit run. -/
def natOfDigits (ds : List Char) : Nat :=
  ds.foldl (fun n c => n * 10 + (c.toNat - '0'.toNat)) 0

/-- Case-insensitive literal match at the head; returns the rest. -/
def matchLit : List Char → List Char → Option (List Char)
  | [], rest => some rest
  | _ :: _, [] => none
  | l :: ls, c :: cs => if c.toLower = l.toLower then matchLit ls cs else none

/-- Head match of `(\d+)\+?\s*year` (case-insensitive): the captured
number and the rest after `year`. -/
def numYearHead (cs : List Char) : Option (Nat × List Char) :=
  let (ds, r1) := digitRun cs
  if ds.isEmpty then none
  else
    let r2 := match r1 with
      | '+' :: t => t
      | _ => r1
    let r3 := r2.dropWhile isWs
    match matchLit ['y', 'e', 'a', 'r'] r3 with
    | some r4 => some (natOfDigits ds, r4)
    | none => none

/-- Head match of pattern `(\d+)\+?\s*years?` — the optional `s` never
affects the capture. -/
def yearsPatAt (cs : List Char) : Option Nat := (numYearHead cs).map (·.1)

/-- Head match of pattern `(\d+)\+?\s*yrs?`. -/
def yrsPatAt (cs : List Char) : Option Nat :=
  let (ds, r1) := digitRun cs
  if ds.isEmpty then none
  else
    let r2 := match r1 with
      | '+' :: t => t
      | _ => r1
    let r3 := r2.dropWhile isWs
    if (matchLit ['y', 'r'] r3).isSome then some (natOfDigits ds) else none

/-- Head match of pattern `(\d+)\s*-\s*(\d+)\s*years?`; only the first
capture group is used by the source. -/
def rangePatAt (cs : List Char) : Option Nat :=
  let (ds, r1) := digitRun cs
  if ds.isEmpty then none
  else
    match r1.dropWhile isWs with
    | '-' :: r3 =>
      let (ds2, r5) := digitRun (r3.dropWhile isWs)
      if ds2.isEmpty then none
      else if (matchLit ['y', 'e', 'a', 'r'] (r5.dropWhile isWs)).isSome then
        some (natOfDigits ds)
      else none
    | _ => none

/-- Leftmost-match scan: try the head matcher at each successive start
position (model of JS regex `String.match` position search). -/
def scanFirst (f : List Char → Option α) : List Char → Option α
  | [] => f []
  | c :: cs =>
    match f (c :: cs) with
    | some a => some a
    | none => scanFirst f cs

/-- `extractExperience` from nlp.service.ts: first capture of the first
pattern that matches anywhere in the text, else 0. -/
def extractExperience (text : String) : Nat :=
  match scanFirst yearsPatAt text.data with
  | some n => n
  | none =>
    match scanFirst yrsPatAt text.data with
    | some n => n
    | none =>
      match scanFirst rangePatAt text.data with
      | some n => n
      | none => 0

/-- Lazy `.+?` followed by one of the given case-insensitive literals:
does some non-empty run of non-line-terminator characters, followed by
one of the literals, start here? -/
def dotPlusThen (lits : List (List Char)) : List Char → Bool
  | [] => false
  | c :: cs =>
    if c = '\n' || c = '\r' then false
    else (lits.any fun l => (matchLit l cs).isSome) || dotPlusThen lits cs

/-- Head match of the preferred-experience pattern
`(\d+)\+?\s*years?.+?(?:preferred|ideal)` from
`extractExperienceLevel`.  After `year`, the greedy `s?` yields up to two
viable continuation points; the capture is the leading digit run either
way. -/
def prefYearsAt (cs : List Char) : Option Nat :=
  match numYearHead cs with
  | none => none
  | some (n, r4) =>
    let cands : List (List Char) := match r4 with
      | c :: t => if c.toLower = 's' then [t, c :: t] else [c :: t]
      | [] => [[]]
    if cands.any (dotPlusThen
        [['p', 'r', 'e', 'f', 'e', 'r', 'r', 'e', 'd'],
         ['i', 'd', 'e', 'a', 'l']]) then
      some n
    else none

/-- Result type of `extractExperienceLevel` (job-description.service.ts). -/
structure ExperienceLevel where
  minimum : Nat
  preferred : Nat
  level : String
deriving Repr, DecidableEq

/-- Experience-level thresholds of the job path
(`extractExperienceLevel`). -/
def jobLevelOfYears (minYears : Nat) : String :=
  if minYears ≥ 8 then "Senior/Lead"
  else if minYears ≥ 5 then "Senior"
  else if minYears ≥ 3 then "Mid-Level"
  else if minYears ≥ 1 then "Junior"
  else "Entry Level"

/-- `extractExperienceLevel` from job-description.service.ts. -/
def extractExperienceLevel (jobText : String) : ExperienceLevel :=
  let minYears := extractExperience jobText
  let preferred := match scanFirst prefYearsAt jobText.data with
    | some n => n
    | none => minYears
  { minimum := minYears, preferred := preferred,
    level := jobLevelOfYears minYears }

/-- Result type of `analyzeExperience` (resume.service.ts). -/
structure Experience where
  years : Nat
  level : String
deriving Repr, DecidableEq

/-- Experience-level thresholds of the resume path
(`analyzeExperience`). -/
def resumeLevelOfYears (years : Nat) : String :=
  if years ≥ 10 then "Lead/Principal"
  else if years ≥ 5 then "Senior"
  else if years ≥ 2 then "Intermediate"
  else "Entry Level"

/-- `analyzeExperience` from resume.service.ts. -/
def analyzeExperience (resumeText : String) : Experience :=
  let years := extractExperience resumeText
  { years := years, level := resumeLevelOfYears years }

/-! ### Interview-question diversification (skills.service.ts) -/

inductive Difficulty
  | easy
  | medium
  | hard
deriving Repr, DecidableEq

/-- `InterviewQuestion` from interview-questions.ts. -/
structure InterviewQuestion where
  question : String
  category : String
  difficulty : Difficulty
  skills : List String
deriving Repr, DecidableEq

/-- Question texts of a list, used to reason about de-duplication. -/
def qTexts (l : List InterviewQuestion) : List String :=
  l.map (fun q => q.question)

/-- Per-difficulty slice of `diversifyQuestions`:
`questions.filter(q => q.difficulty === difficulty).slice(0, 5)`. -/
def difficultySlice (questions : List InterviewQuestion)
    (difficulty : Difficulty) : List InterviewQuestion :=
  (questions.filter (fun q => q.difficulty == difficulty)).take 5

/-- One step of the second loop of `diversifyQuestions`: push `q` unless
a question with the same text is already present. -/
def appendUnseen (acc : List InterviewQuestion)
    (q : InterviewQuestion) : List InterviewQuestion :=
  if acc.any (fun d => d.question == q.question) then acc else acc ++ [q]

/-- `diversifyQuestions` from skills.service.ts: up to 5 questions of
each of easy/medium/hard in that order, then any remaining questions
whose text is not yet present. -/
def diversifyQuestions
    (questions : List InterviewQuestion) : List InterviewQuestion :=
  let difficulties : List Difficulty := [.easy, .medium, .hard]
  let diversified := difficulties.foldl
    (fun acc difficulty => acc ++ difficultySlice questions difficulty) []
  questions.foldl appendUnseen diversified

/-- The question list returned by `getInterviewPreparation`
(skills.service.ts line 88): `this.diversifyQuestions(questions).slice(0, 15)`. -/
def preparationQuestions
    (questions : List InterviewQuestion) : List InterviewQuestion :=
  (diversifyQuestions questions).take 15

/-- Easy question with the given text, input material for concrete
evaluations of `diversifyQuestions`. -/
def mkEasyQ (s : String) : InterviewQuestion :=
  { question := s, category := "General", difficulty := .easy, skills := [] }

/-- Sixteen easy questions, the first two sharing one text. -/
def sixteenEasy : List InterviewQuestion :=
  [mkEasyQ "q1", mkEasyQ "q1", mkEasyQ "q2", mkEasyQ "q3", mkEasyQ "q4",
   mkEasyQ "q5", mkEasyQ "q6", mkEasyQ "q7", mkEasyQ "q8", mkEasyQ "q9",
   mkEasyQ "q10", mkEasyQ "q11", mkEasyQ "q12", mkEasyQ "q13",
   mkEasyQ "q14", mkEasyQ "q15"]

/-! ### Resume overall score (resume.service.ts) -/

/-- Shape of the `analyzeSections` result. -/
structure SectionsAnalysis where
  found : List String
  missing : List String
  recommendations : List String
deriving Repr, DecidableEq

/-- Shape of the `analyzeSkills` result. -/
structure SkillsAnalysis where
  found : List String
  suggested : List String
  byCategory : List (String × List String)
deriving Repr, DecidableEq

/-- Shape of the `analyzeSentiment` result (resume.service.ts); the
score's float arithmetic lives in the external sentiment library, the
scoring code only reads `assessment`. -/
structure SentimentAnalysis where
  score : ℚ
  assessment : String
  feedback : String
deriving Repr, DecidableEq

/-- `calculateOverallScore` from resume.service.ts: sections 40-point
share, skills 30-point share capped, flat 15 for nonzero experience,
15/10/5 sentiment share, capped at 100 and rounded. -/
def calculateOverallScore (sections : SectionsAnalysis)
    (skills : SkillsAnalysis) (experience : Experience)
    (sentiment : SentimentAnalysis) : ℤ :=
  let sectionScore : ℚ := ((sections.found.length : ℚ) / 8) * 40
  let skillScore : ℚ := min (((skills.found.length : ℚ) / 10) * 30) 30
  let expScore : ℚ := if experience.years > 0 then 15 else 0
  let sentScore : ℚ :=
    if sentiment.assessment = "positive" then 15
    else if sentiment.assessment = "neutral" then 10
    else 5
  jsRound (min (sectionScore + skillScore + expScore + sentScore) 100)

/-- Modelled from the spec: the overall-score formula as §4.3 words it —
sections contribute `40 × (|found| / 8)`, skills
`min(30 × |found| / 10, 30)`, experience a flat 15 if years > 0 else 0,
sentiment 15/10/5 for positive/neutral/negative, the sum capped at 100
and rounded.  Stated over the four numbers the formula reads, for
comparison against `calculateOverallScore`. -/
def specOverallScore (foundSections foundSkills years : Nat)
    (assessment : String) : ℤ :=
  jsRound (min
    (40 * ((foundSections : ℚ) / 8) +
      min ((30 * (foundSkills : ℚ)) / 10) 30 +
      (if years > 0 then (15 : ℚ) else 0) +
      (if assessment = "positive" then (15 : ℚ)
        else if assessment = "negative" then 5 else 10)) 100)

/-! ### Skill extraction and required/preferred classification -/

def isAlpha (c : Char) : Bool := ('a' ≤ c && c ≤ 'z') || ('A' ≤ c && c ≤ 'Z')

def isUpper (c : Char) : Bool := 'A' ≤ c && c ≤ 'Z'

def isAlnum (c : Char) : Bool := isAlpha c || isDigit c

/-- Maximal runs of characters satisfying `p` (`cur` is the current run,
reversed) — the shared word-splitting step of the tokenizer models. -/
def runsBy (p : Char → Bool) : List Char → List Char → List (List Char)
  | cur, [] => if cur.isEmpty then [] else [cur.reverse]
  | cur, c :: cs =>
    if p c then runsBy p (c :: cur) cs
    else if cur.isEmpty then runsBy p [] cs
    else cur.reverse :: runsBy p [] cs

/-- Modelled from the spec: the external `compromise` part-of-speech
matcher behind `doc.match('#Acronym')` is not part of this repository;
per §4.1 it detects all-capital acronym tokens (2+ letters).  The model
takes the maximal alphabetic words that are entirely upper-case with at
least two letters. -/
def acronymTokens (text : String) : List String :=
  ((runsBy isAlpha [] text.data).filter
    (fun w => w.all isUpper && w.length ≥ 2)).map (fun w => ⟨w⟩)

/-- Word tokenizer (model of natural's `WordTokenizer`, which splits on
non-alphanumeric characters and discards the separators). -/
def tokenize (s : String) : List String :=
  (runsBy isAlnum [] s.data).map (fun w => ⟨w⟩)

/-- Fixed technical-skill lexicon of `NlpService.extractSkills`. -/
def techSkills : List String :=
  ["javascript", "python", "java", "react", "angular", "vue",
   "nodejs", "nestjs", "express", "mongodb", "sql", "postgresql",
   "docker", "kubernetes", "aws", "azure", "gcp", "git",
   "typescript", "html", "css", "rest", "graphql", "api"]

/-- Fixed soft-skill lexicon of `NlpService.extractSkills`. -/
def softSkills : List String :=
  ["leadership", "communication", "teamwork", "problem solving",
   "analytical", "creative", "management", "collaboration"]

/-- First-occurrence de-duplication (model of collecting into a JS
`Set`, which keeps insertion order). -/
def dedupFirstAux (seen : List String) : List String → List String
  | [] => []
  | a :: l =>
    if a ∈ seen then dedupFirstAux seen l
    else a :: dedupFirstAux (a :: seen) l

def dedupFirst (l : List String) : List String := dedupFirstAux [] l

/-- `NlpService.extractSkills` (nlp.service.ts): lexicon entries found
by case-insensitive substring search, then long-enough acronym tokens,
collected into a `Set` (first-occurrence order). -/
def NlpService.extractSkills (text : String) : List String :=
  let allSkills := techSkills ++ softSkills
  let lowerText := lower text
  let lexiconFound := allSkills.filter (fun skill => includes lowerText skill)
  let acronyms := (acronymTokens text).filter (fun phrase => phrase.length > 2)
  dedupFirst (lexiconFound ++ acronyms)

/-! ### Keyword extraction and the shared TfIdf accumulator -/

/-- State of the `NlpService` singleton: the `tfidf` field is created
once in the constructor and `addDocument` appends to it on every
`extractKeywords` call, so the accumulated (tokenized) documents persist
across invocations. -/
structure NlpState where
  documents : List (List String)
deriving Repr, DecidableEq

/-- `NlpService.extractKeywords` (nlp.service.ts), stateful:
`this.tfidf.addDocument(text.toLowerCase())` appends the tokenized text
to the accumulator, then `listTerms(0)` ranks the terms of document 0 —
the first document ever added, not necessarily the current text.  Terms
of length ≤ 3 (strictly: only lengths > 3 kept) are discarded and the
top `topN` returned.  The external library's inverse-document-frequency
weight is modelled from the spec (§4.1): within a single-document corpus
the statistic degenerates to a frequency-weighted ranking, so the model
scores a document-0 term by its term frequency in document 0; this
coincides with the library's ranking whenever all terms of document 0
share one document frequency, as in every corpus evaluated below. -/
def NlpService.extractKeywords (st : NlpState) (text : String)
    (topN : Nat) : List String × NlpState :=
  let st' : NlpState := ⟨st.documents ++ [tokenize (lower text)]⟩
  let doc0 : List String := st'.documents.headD []
  let listed : List (String × ℚ) :=
    List.insertionSort (fun a b : String × ℚ => a.2 ≥ b.2)
      ((dedupFirst doc0).map (fun t => (t, (doc0.count t : ℚ))))
  let keywords := listed.filter (fun k => k.1.length > 3)
  ((keywords.take topN).map (fun k => k.1), st')

/-- A fresh, request-scoped invocation of `extractKeywords`, as §5 of
the spec mandates: the accumulator starts empty and is discarded. -/
def freshExtractKeywords (text : String) (topN : Nat) : List String :=
  (NlpService.extractKeywords ⟨[]⟩ text topN).1

/-! ### Sentiment and section detection -/

/-- `NlpService.analyzeSentiment` (nlp.service.ts), parameterized by the
word-polarity lexicon of the external AFINN table (library data, not
repository code): tokenize the lowercased text, average the per-token
polarity, and bucket at the fixed ±0.3 thresholds.  An empty token list
yields score 0 (the JS code produces NaN there, which lands in the same
`neutral` bucket). -/
def NlpService.analyzeSentiment (lex : String → ℚ) (text : String) :
    ℚ × String :=
  let tokens := tokenize (lower text)
  let score : ℚ :=
    if tokens.length = 0 then 0 else (tokens.map lex).sum / tokens.length
  let assessment :=
    if score > 3/10 then "positive"
    else if score < -(3/10) then "negative"
    else "neutral"
  (score, assessment)

/-- `NlpService.extractSections` (nlp.service.ts) as a name-indexed
lookup: each section is an independent case-insensitive
alternation-of-synonyms test on the text. -/
def sectionFound (text : String) (sectionName : String) : Bool :=
  let lt := lower text
  match sectionName with
  | "summary" =>
    includes lt "summary" || includes lt "objective" || includes lt "profile"
  | "experience" =>
    includes lt "experience" || includes lt "employment" ||
      includes lt "work history"
  | "education" =>
    includes lt "education" || includes lt "academic" ||
      includes lt "degree" || includes lt "university"
  | "skills" =>
    includes lt "skills" || includes lt "technical" ||
      includes lt "competencies"
  | "projects" => includes lt "projects" || includes lt "portfolio"
  | "certifications" =>
    includes lt "certification" || includes lt "certificate" ||
      includes lt "licensed"
  | "achievements" =>
    includes lt "achievement" || includes lt "award" || includes lt "honor"
  | "contact" =>
    includes lt "email" || includes lt "phone" ||
      includes lt "linkedin" || includes lt "github"
  | _ => false

/-- Required/preferred buckets returned by the job-description
`extractSkills`. -/
structure SkillBuckets where
  required : List String
  preferred : List String
deriving Repr, DecidableEq

/-- The three context keywords that classify a skill as required. -/
def requiredMarkers : List String := ["required", "must have", "essential"]

/-- The three context keywords that classify a skill as preferred. -/
def preferredMarkers : List String := ["preferred", "nice to have", "bonus"]

/-- The ±100-character context window of lowercase text around the first
occurrence of a skill (`none` when the skill does not occur):
`lowerText.substring(max(0, i-100), min(len, i+100))`. -/
def skillContext (lowerText skill : String) : Option String :=
  match firstIndexOf (lower skill).data lowerText.data with
  | none => none
  | some skillIndex =>
    let start := skillIndex - 100
    let stop := min lowerText.data.length (skillIndex + 100)
    some ⟨(lowerText.data.drop start).take (stop - start)⟩

/-- One iteration of the `allSkills.forEach` classification loop in the
job-description `extractSkills`: push the skill to required when the
window holds a required marker, else to preferred when it holds a
preferred marker, else to required by default; skip when the skill has
no occurrence. -/
def classifyStep (lowerText : String) (buckets : SkillBuckets)
    (skill : String) : SkillBuckets :=
  match skillContext lowerText skill with
  | none => buckets
  | some context =>
    if requiredMarkers.any (fun m => includes context m) then
      { buckets with required := buckets.required ++ [skill] }
    else if preferredMarkers.any (fun m => includes context m) then
      { buckets with preferred := buckets.preferred ++ [skill] }
    else
      { buckets with required := buckets.required ++ [skill] }

/-- `extractSkills` of job-description.service.ts: classify every
extracted skill by its context window, then de-duplicate each bucket. -/
def JobDescriptionService.extractSkills (jobText : String) : SkillBuckets :=
  let allSkills := NlpService.extractSkills jobText
  let lowerText := lower jobText
  let buckets := allSkills.foldl (classifyStep lowerText) ⟨[], []⟩
  { required := dedupFirst buckets.required,
    preferred := dedupFirst buckets.preferred }

/-- Does the context window of `skill` put it in the required bucket?
(required marker present, or no preferred marker — the default). -/
def windowRequired (lowerText skill : String) : Bool :=
  match skillContext lowerText skill with
  | none => false
  | some context =>
    requiredMarkers.any (fun m => includes context m) ||
      !(preferredMarkers.any (fun m => includes context m))

/-- Does the context window of `skill` put it in the preferred bucket?
(no required marker, and a preferred marker present). -/
def windowPreferred (lowerText skill : String) : Bool :=
  match skillContext lowerText skill with
  | none => false
  | some context =>
    !(requiredMarkers.any (fun m => includes context m)) &&
      preferredMarkers.any (fun m => includes context m)

/-! ### Job role, responsibilities and qualifications extraction -/

/-- JS `String.split('\n')`. -/
def splitOnNl : List Char → List (List Char)
  | [] => [[]]
  | c :: cs =>
    if c = '\n' then [] :: splitOnNl cs
    else
      match splitOnNl cs with
      | [] => [[c]]
      | l :: ls => (c :: l) :: ls

/-- JS `String.trim` (whitespace on both ends). -/
def trimChars (cs : List Char) : List Char :=
  ((cs.dropWhile isWs).reverse.dropWhile isWs).reverse

def trimStr (s : String) : String := ⟨trimChars s.data⟩

def splitLines (s : String) : List String :=
  (splitOnNl s.data).map (fun cs => ⟨cs⟩)

/-- `.` of the JS regexes: any character but a line terminator. -/
def isDot (c : Char) : Bool := !(c = '\n' || c = '\r')

/-- Candidate lengths for a greedy `\s*`, longest first. -/
def wsPrefixLens (cs : List Char) : List Nat :=
  (List.range ((cs.takeWhile isWs).length + 1)).reverse

/-- Tail `\s*:?\s*(.+)` of the first role pattern, with JS backtracking
order (both `\s*` greedy longest-first, `:?` greedy): the capture is the
maximal dot-run at the first viable split. -/
def roleCaptureAfterKw (r : List Char) : Option (List Char) :=
  (wsPrefixLens r).findSome? fun l1 =>
    let r1 := r.drop l1
    let colonOpts : List (List Char) :=
      match r1 with
      | ':' :: t => [t, r1]
      | _ => [r1]
    colonOpts.findSome? fun r2 =>
      (wsPrefixLens r2).findSome? fun l2 =>
        let r3 := r2.drop l2
        let cap := r3.takeWhile isDot
        if cap.isEmpty then none else some cap

/-- Head match of role pattern 1,
`(?:position|role|title|job)\s*:?\s*(.+)` (case-insensitive),
alternatives tried in source order. -/
def rolePattern1At (cs : List Char) : Option (List Char) :=
  [['p', 'o', 's', 'i', 't', 'i', 'o', 'n'],
   ['r', 'o', 'l', 'e'],
   ['t', 'i', 't', 'l', 'e'],
   ['j', 'o', 'b']].findSome? fun kw =>
    match matchLit kw cs with
    | none => none
    | some r => roleCaptureAfterKw r

/-- The `(?:\s+to|\s+for|$)` terminator of role pattern 2; which
alternative matches does not affect the capture. -/
def roleTermAt (cs : List Char) : Bool :=
  (((List.range ((cs.takeWhile isWs).length)).map (· + 1)).any fun l =>
    (matchLit ['t', 'o'] (cs.drop l)).isSome ||
      (matchLit ['f', 'o', 'r'] (cs.drop l)).isSome) ||
  cs.isEmpty

/-- Lazy `(.+?)` before the role terminator: the shortest non-empty
dot-run after which the terminator matches. -/
def lazyDotThenTerm : List Char → Option (List Char)
  | [] => none
  | c :: t =>
    if isDot c then
      if roleTermAt t then some [c]
      else (lazyDotThenTerm t).map (fun cap => c :: cap)
    else none

/-- Head match of role pattern 2,
`hiring\s+(?:a|an)?\s*(.+?)(?:\s+to|\s+for|$)` (case-insensitive), with
JS backtracking order: `\s+` greedy, the optional article tried as `a`,
then `an`, then empty, `\s*` greedy, the capture lazy. -/
def rolePattern2At (cs : List Char) : Option (List Char) :=
  match matchLit ['h', 'i', 'r', 'i', 'n', 'g'] cs with
  | none => none
  | some r =>
    (((List.range ((r.takeWhile isWs).length)).reverse.map (· + 1)).findSome?
      fun l1 =>
        let r1 := r.drop l1
        let artOpts : List (List Char) :=
          (match matchLit ['a'] r1 with
            | some t => [t]
            | none => []) ++
          (match matchLit ['a', 'n'] r1 with
            | some t => [t]
            | none => []) ++ [r1]
        artOpts.findSome? fun r2 =>
          (wsPrefixLens r2).findSome? fun l2 =>
            lazyDotThenTerm (r2.drop l2))

/-- Does the line start with an upper-case letter
(`/^[A-Z]/.test(line)`)? -/
def startsUpper (s : String) : Bool :=
  match s.data with
  | [] => false
  | c :: _ => isUpper c

/-- The per-line loop of `extractRole`: try pattern 1, then pattern 2,
then accept a short line starting with a capital. -/
def roleFromLines : List String → String
  | [] => "Not specified"
  | line :: rest =>
    match scanFirst rolePattern1At line.data with
    | some cap => trimStr ⟨cap⟩
    | none =>
      match scanFirst rolePattern2At line.data with
      | some cap => trimStr ⟨cap⟩
      | none =>
        if line.length < 50 && startsUpper line then trimStr line
        else roleFromLines rest

/-- `extractRole` from job-description.service.ts: scan the first 5
non-blank lines. -/
def extractRole (jobText : String) : String :=
  let lines := (splitLines jobText).filter
    (fun line => (trimStr line).length > 0)
  roleFromLines (lines.take 5)

/-- Leading bullet/numbering strip:
`trimmed.replace(/^[-•*\d.)\]]+\s*/, '')`. -/
def isBulletChar (c : Char) : Bool :=
  c = '-' || c = '•' || c = '*' || isDigit c || c = '.' || c = ')' || c = ']'

def stripBullets (s : String) : String :=
  match s.data with
  | [] => s
  | c :: _ =>
    if isBulletChar c then ⟨(s.data.dropWhile isBulletChar).dropWhile isWs⟩
    else s

/-- Shared line-scanning loop of `extractResponsibilities` and
`extractQualifications`: a start marker (checked first on every line)
turns collection on, a stop marker while collecting ends the scan, and
collected lines are stripped of bullets and length-filtered. -/
def sectionItemsGo (startMarkers stopMarkers : List String) :
    Bool → List String → List String
  | _, [] => []
  | inSec, line :: rest =>
    let trimmed := trimStr line
    if startMarkers.any (fun m => includes (lower trimmed) m) then
      sectionItemsGo startMarkers stopMarkers true rest
    else if inSec && stopMarkers.any (fun m => includes (lower trimmed) m) then
      []
    else if inSec then
      let cleaned := stripBullets trimmed
      if cleaned.length > 20 && cleaned.length < 200 then
        cleaned :: sectionItemsGo startMarkers stopMarkers true rest
      else sectionItemsGo startMarkers stopMarkers true rest
    else sectionItemsGo startMarkers stopMarkers false rest

/-- `extractResponsibilities` from job-description.service.ts. -/
def extractResponsibilities (jobText : String) : List String :=
  (sectionItemsGo ["responsibilities", "duties", "what you\x27ll do"]
    ["qualifications", "requirements", "skills"]
    false (splitLines jobText)).take 8

/-- `extractQualifications` from job-description.service.ts. -/
def extractQualifications (jobText : String) : List String :=
  (sectionItemsGo ["qualifications", "requirements", "what we\x27re looking for"]
    ["responsibilities", "about us", "company"]
    false (splitLines jobText)).take 8

/-! ### Resume and job analyzers (resume.service.ts,
job-description.service.ts) -/

/-- `SKILLS_DATABASE` (skills-database.ts) as category-name/skill-list
pairs; the related-roles field is unused by the analyzed functions. -/
def SKILLS_DATABASE : List (String × List String) :=
  [("Frontend Development",
    ["HTML", "CSS", "JavaScript", "TypeScript", "React", "Angular",
     "Vue.js", "Redux", "Webpack", "Sass", "Tailwind CSS", "Bootstrap",
     "Next.js", "Responsive Design", "Web Accessibility"]),
   ("Backend Development",
    ["Node.js", "NestJS", "Express.js", "Python", "Django", "Flask",
     "Java", "Spring Boot", "PHP", "Laravel", "Ruby on Rails",
     "RESTful APIs", "GraphQL", "Microservices", "Authentication"]),
   ("Databases",
    ["MongoDB", "PostgreSQL", "MySQL", "Redis", "SQLite",
     "Oracle", "SQL Server", "Database Design", "Query Optimization",
     "NoSQL", "Cassandra", "DynamoDB"]),
   ("DevOps & Cloud",
    ["Docker", "Kubernetes", "AWS", "Azure", "Google Cloud Platform",
     "CI/CD", "Jenkins", "GitHub Actions", "Terraform", "Ansible",
     "Linux", "Shell Scripting", "Nginx", "Monitoring"]),
   ("Mobile Development",
    ["React Native", "Flutter", "Swift", "Kotlin", "Android",
     "iOS", "Xamarin", "Mobile UI/UX", "App Store Deployment",
     "Push Notifications", "Offline Storage"]),
   ("Data Science & AI",
    ["Python", "R", "Machine Learning", "TensorFlow", "PyTorch",
     "Scikit-learn", "Pandas", "NumPy", "Data Visualization",
     "SQL", "Statistics", "Deep Learning", "NLP", "Computer Vision"]),
   ("Testing & QA",
    ["Jest", "Mocha", "Cypress", "Selenium", "Pytest",
     "Unit Testing", "Integration Testing", "Test Automation",
     "Performance Testing", "Security Testing", "Bug Tracking"]),
   ("Soft Skills",
    ["Communication", "Leadership", "Team Collaboration", "Problem Solving",
     "Critical Thinking", "Time Management", "Adaptability",
     "Project Management", "Agile/Scrum", "Mentoring"]),
   ("Tools & Version Control",
    ["Git", "GitHub", "GitLab", "Bitbucket", "JIRA", "Confluence",
     "Slack", "VS Code", "IntelliJ IDEA", "Postman", "Figma"])]

def requiredSections : List String :=
  ["contact", "summary", "experience", "education", "skills"]

def recommendedSections : List String :=
  ["projects", "certifications", "achievements"]

/-- `analyzeSections` from resume.service.ts: found/missing against the
fixed section lists, with one recommendation per missing section. -/
def ResumeService.analyzeSections (resumeText : String) : SectionsAnalysis :=
  let found :=
    requiredSections.filter (sectionFound resumeText) ++
      recommendedSections.filter (sectionFound resumeText)
  let missing := requiredSections.filter (fun s => !sectionFound resumeText s)
  let recommendations :=
    (requiredSections.filter (fun s => !sectionFound resumeText s)).map
      (fun s => "Add a " ++ s ++
        " section - this is essential for a complete resume") ++
    (recommendedSections.filter (fun s => !sectionFound resumeText s)).map
      (fun s => "Consider adding a " ++ s ++
        " section to strengthen your resume")
  { found := found, missing := missing, recommendations := recommendations }

/-- `analyzeSkills` from resume.service.ts: found skills, taxonomy
categorization (case-insensitive equality), and the fixed
complementary-skill suggestion rules. -/
def ResumeService.analyzeSkills (resumeText : String) : SkillsAnalysis :=
  let foundSkills := NlpService.extractSkills resumeText
  let byCategory :=
    (SKILLS_DATABASE.map (fun cat =>
      (cat.1, foundSkills.filter (fun skill =>
        cat.2.any (fun s => lower s = lower skill))))).filter
      (fun p => p.2.length > 0)
  let suggested :=
    (if foundSkills.any (fun s =>
        lower s ∈ (["react", "angular", "vue"] : List String)) then
      (if !foundSkills.any (fun s => includes (lower s) "typescript") then
        ["TypeScript"] else []) ++
      (if !foundSkills.any (fun s => includes (lower s) "testing") then
        ["Jest or Cypress (Testing)"] else [])
    else []) ++
    (if foundSkills.any (fun s =>
        lower s ∈ (["nodejs", "python", "java"] : List String)) then
      (if !foundSkills.any (fun s =>
          lower s ∈ (["mongodb", "postgresql", "mysql"] : List String)) then
        ["Database skills (MongoDB/PostgreSQL)"] else []) ++
      (if !foundSkills.any (fun s => includes (lower s) "docker") then
        ["Docker (Containerization)"] else [])
    else []) ++
    (if foundSkills.length < 5 then
      ["Add more technical skills relevant to your target role"] else []) ++
    (if !foundSkills.any (fun s => includes (lower s) "git") then
      ["Git (Version Control) - Essential for developers"] else [])
  { found := foundSkills, suggested := suggested, byCategory := byCategory }

/-- `analyzeSentiment` from resume.service.ts: the NLP bucket plus the
per-bucket feedback string. -/
def ResumeService.analyzeSentiment (lex : String → ℚ)
    (resumeText : String) : SentimentAnalysis :=
  let s := NlpService.analyzeSentiment lex resumeText
  let feedback :=
    if s.2 = "positive" then
      "Great! Your resume uses confident, positive language."
    else if s.2 = "negative" then
      "Consider using more positive and action-oriented language."
    else
      "Your resume language is neutral. Try adding more action verbs and achievements."
  { score := s.1, assessment := s.2, feedback := feedback }

/-- `generateImprovements` from resume.service.ts. -/
def ResumeService.generateImprovements (sections : SectionsAnalysis)
    (skills : SkillsAnalysis) (experience : Experience)
    (sentiment : SentimentAnalysis) : List String :=
  (if sections.missing.length > 0 then
    ["Missing critical sections: " ++
      String.intercalate ", " sections.missing ++
      ". Add these to make your resume complete."] else []) ++
  (if skills.found.length < 5 then
    ["Add more relevant technical skills. Aim for at least 8-10 skills related to your target role."]
   else []) ++
  (if skills.suggested.length > 0 then
    ["Consider learning these in-demand skills: " ++
      String.intercalate ", " (skills.suggested.take 3)] else []) ++
  (if experience.years = 0 then
    ["Clearly mention your years of experience in each role or add a professional summary highlighting your experience."]
   else []) ++
  (if sentiment.assessment ≠ "positive" then
    ["Use strong action verbs (e.g., \"developed\", \"led\", \"implemented\") to describe your achievements."]
   else []) ++
  ["Quantify your achievements with numbers and metrics where possible.",
   "Tailor your resume for each job application by matching keywords from the job description."]

/-- `ResumeAnalysis` of resume.service.ts. -/
structure ResumeAnalysis where
  overallScore : ℤ
  sections : SectionsAnalysis
  skills : SkillsAnalysis
  experience : Experience
  keywords : List String
  sentiment : SentimentAnalysis
  improvements : List String
deriving Repr, DecidableEq

/-- `analyzeResume` from resume.service.ts, threading the shared NLP
accumulator that `extractKeywords` mutates and abstracting the external
sentiment lexicon. -/
def ResumeService.analyzeResume (lex : String → ℚ) (st : NlpState)
    (resumeText : String) : ResumeAnalysis × NlpState :=
  let sections := ResumeService.analyzeSections resumeText
  let skills := ResumeService.analyzeSkills resumeText
  let experience := analyzeExperience resumeText
  let kw := NlpService.extractKeywords st resumeText 15
  let sentiment := ResumeService.analyzeSentiment lex resumeText
  let improvements :=
    ResumeService.generateImprovements sections skills experience sentiment
  let overallScore :=
    calculateOverallScore sections skills experience sentiment
  ({ overallScore := overallScore, sections := sections, skills := skills,
     experience := experience, keywords := kw.1, sentiment := sentiment,
     improvements := improvements }, kw.2)

/-- `JobAnalysis` of job-description.service.ts (optional fields are
populated only in comparison mode). -/
structure JobAnalysis where
  role : String
  requiredSkills : List String
  preferredSkills : List String
  experienceLevel : ExperienceLevel
  keywords : List String
  responsibilities : List String
  qualifications : List String
  matchScore : Option ℤ
  recommendations : Option (List String)
deriving Repr, DecidableEq

/-- `analyzeJobDescription` from job-description.service.ts. -/
def JobDescriptionService.analyzeJobDescription (st : NlpState)
    (jobText : String) : JobAnalysis × NlpState :=
  let role := extractRole jobText
  let skills := JobDescriptionService.extractSkills jobText
  let experienceLevel := extractExperienceLevel jobText
  let kw := NlpService.extractKeywords st jobText 20
  let responsibilities := extractResponsibilities jobText
  let qualifications := extractQualifications jobText
  ({ role := role, requiredSkills := skills.required,
     preferredSkills := skills.preferred,
     experienceLevel := experienceLevel, keywords := kw.1,
     responsibilities := responsibilities,
     qualifications := qualifications,
     matchScore := none, recommendations := none }, kw.2)

/-- `generateRecommendations` from job-description.service.ts. -/
def JobDescriptionService.generateRecommendations
    (resumeSkills requiredSkills preferredSkills : List String) :
    List String :=
  let missingRequired := requiredSkills.filter (fun reqSkill =>
    !resumeSkills.any (fun resSkill => bidirMatch resSkill reqSkill))
  let missingPreferred := preferredSkills.filter (fun prefSkill =>
    !resumeSkills.any (fun resSkill => bidirMatch resSkill prefSkill))
  (if missingRequired.length > 0 then
    ["Critical: Add these required skills to your resume: " ++
      String.intercalate ", " (missingRequired.take 5),
     "Consider taking online courses or building projects to gain these skills."]
   else []) ++
  (if missingPreferred.length > 0 then
    ["Enhance your profile with these preferred skills: " ++
      String.intercalate ", " (missingPreferred.take 3)] else []) ++
  ["Tailor your resume to include keywords from this job description.",
   "Highlight projects or experiences that demonstrate the required skills."]

/-- `compareResumeWithJob` from job-description.service.ts: the job
analysis with match score and recommendations filled in. -/
def JobDescriptionService.compareResumeWithJob (st : NlpState)
    (resumeText jobText : String) : JobAnalysis × NlpState :=
  let ja := JobDescriptionService.analyzeJobDescription st jobText
  let resumeSkills := NlpService.extractSkills resumeText
  let matchScore := calculateMatchScore resumeSkills
    ja.1.requiredSkills ja.1.preferredSkills
  let recommendations := JobDescriptionService.generateRecommendations
    resumeSkills ja.1.requiredSkills ja.1.preferredSkills
  let j := ja.1
  ({ j with
      matchScore := some matchScore,
      recommendations := some recommendations }, ja.2)

/-- Coverage ratio of a filtered sublist lies in `[0,1]`. -/
lemma filter_ratio_mem (l : List α) (p : α → Bool) (h : l.length ≠ 0) :
    (0 : ℚ) ≤ ((l.filter p).length : ℚ) / (l.length : ℚ) ∧
      ((l.filter p).length : ℚ) / (l.length : ℚ) ≤ 1 := by
  have hlen : (l.filter p).length ≤ l.length := List.length_filter_le _ _
  have hpos : (0 : ℚ) < (l.length : ℚ) := by
    exact_mod_cast Nat.pos_of_ne_zero h
  constructor
  · exact div_nonneg (by exact_mod_cast Nat.zero_le _) (le_of_lt hpos)
  · rw [div_le_one hpos]
    exact_mod_cast hlen

/-- `jsRound` maps `[0,100]` into `[0,100]`. -/
lemma jsRound_mem (q : ℚ) (h0 : 0 ≤ q) (h1 : q ≤ 100) :
    0 ≤ jsRound q ∧ jsRound q ≤ 100 := by
  unfold jsRound
  constructor
  · have : (0 : ℚ) ≤ q + 1/2 := by linarith
    exact Int.floor_nonneg.mpr this
  · have hlt : q + 1/2 < ((101 : ℤ) : ℚ) := by push_cast; linarith
    have := Int.floor_lt.mpr hlt
    omega

/-- Claim C2: for every pair of resume-skill and preferred-skill lists, if
the job's requiredSkills list is empty then `calculateMatchScore` returns
exactly 50, regardless of resume content — the empty-required
short-circuit takes precedence over preferred scoring. -/
theorem C2_empty_required_returns_50
    (resumeSkills preferredSkills : List String) :
    calculateMatchScore resumeSkills [] preferredSkills = 50 := by
  simp [calculateMatchScore]

/-- The match score always lands in `[0,100]`. -/
lemma matchScore_mem (rs req pref : List String) :
    0 ≤ calculateMatchScore rs req pref ∧
      calculateMatchScore rs req pref ≤ 100 := by
  simp only [calculateMatchScore]
  split_ifs with hreq hpref
  · norm_num
  · obtain ⟨h0r, h1r⟩ := filter_ratio_mem req
      (fun reqSkill => rs.any fun resSkill => bidirMatch resSkill reqSkill) hreq
    exact jsRound_mem _ (by nlinarith) (by nlinarith)
  · obtain ⟨h0r, h1r⟩ := filter_ratio_mem req
      (fun reqSkill => rs.any fun resSkill => bidirMatch resSkill reqSkill) hreq
    obtain ⟨h0p, h1p⟩ := filter_ratio_mem pref
      (fun prefSkill => rs.any fun resSkill => bidirMatch resSkill prefSkill) hpref
    exact jsRound_mem _ (by nlinarith) (by nlinarith)

/-- Claim C6: for every resume-skill, required-skill and preferred-skill
lists, `calculateMatchScore` returns an integer in `[0,100]`: required
coverage contributes `70 × (matched/total)`, preferred coverage up to 30
(full 30 when none listed), and the rounded sum is bounded. -/
theorem C6_matchScore_in_range (rs req pref : List String) :
    0 ≤ calculateMatchScore rs req pref ∧
      calculateMatchScore rs req pref ≤ 100 :=
  matchScore_mem rs req pref

/-- Claim C3: on the job text `"5+ years required, 8+ years preferred"`
the code returns `minimum = 5` but `preferred = 5`, not the specified 8 —
the preferred-years regex finds its leftmost match at the first number,
so its capture group is 5.  This theorem evaluates the model at the
failing input. -/
theorem C3_preferred_years_capture :
    extractExperienceLevel "5+ years required, 8+ years preferred" =
      { minimum := 5, preferred := 5, level := "Senior" } := by
  rfl

/-- Boundary behaviour of the job-path level thresholds. -/
lemma jobLevelOfYears_spec (y : Nat) :
    (8 ≤ y → jobLevelOfYears y = "Senior/Lead") ∧
    (5 ≤ y ∧ y ≤ 7 → jobLevelOfYears y = "Senior") ∧
    (3 ≤ y ∧ y ≤ 4 → jobLevelOfYears y = "Mid-Level") ∧
    (1 ≤ y ∧ y ≤ 2 → jobLevelOfYears y = "Junior") ∧
    (y = 0 → jobLevelOfYears y = "Entry Level") := by
  unfold jobLevelOfYears
  split_ifs <;> refine ⟨?_, ?_, ?_, ?_, ?_⟩ <;> intro h <;>
    first | rfl | omega

/-- Boundary behaviour of the resume-path level thresholds. -/
lemma resumeLevelOfYears_spec (y : Nat) :
    (10 ≤ y → resumeLevelOfYears y = "Lead/Principal") ∧
    (5 ≤ y ∧ y ≤ 9 → resumeLevelOfYears y = "Senior") ∧
    (2 ≤ y ∧ y ≤ 4 → resumeLevelOfYears y = "Intermediate") ∧
    (y ≤ 1 → resumeLevelOfYears y = "Entry Level") := by
  unfold resumeLevelOfYears
  split_ifs <;> refine ⟨?_, ?_, ?_, ?_⟩ <;> intro h <;>
    first | rfl | omega

/-- Claim C4, counterexample: a resume text with `experienceYears = 8`
is labelled `"Senior"` by the resume path, not the claimed
`"Senior/Lead"` (the resume path reserves its top label
`"Lead/Principal"` for 10+ years and never produces `"Senior/Lead"`). -/
theorem C4_counterexample :
    (analyzeExperience "Professional with 8 years of experience").years = 8 ∧
      (analyzeExperience "Professional with 8 years of experience").level ≠
        "Senior/Lead" := by
  constructor
  · rfl
  · decide

/-- Claim C4 as amended: the job path follows the closed boundaries
≥8 → "Senior/Lead", 5–7 → "Senior", 3–4 → "Mid-Level", 1–2 → "Junior",
0 → "Entry Level"; the resume path instead follows ≥10 →
"Lead/Principal", 5–9 → "Senior", 2–4 → "Intermediate", 0–1 →
"Entry Level". -/
theorem C4_experience_level_boundaries (text : String) :
    (8 ≤ (extractExperienceLevel text).minimum →
        (extractExperienceLevel text).level = "Senior/Lead") ∧
    (5 ≤ (extractExperienceLevel text).minimum ∧
        (extractExperienceLevel text).minimum ≤ 7 →
        (extractExperienceLevel text).level = "Senior") ∧
    (3 ≤ (extractExperienceLevel text).minimum ∧
        (extractExperienceLevel text).minimum ≤ 4 →
        (extractExperienceLevel text).level = "Mid-Level") ∧
    (1 ≤ (extractExperienceLevel text).minimum ∧
        (extractExperienceLevel text).minimum ≤ 2 →
        (extractExperienceLevel text).level = "Junior") ∧
    ((extractExperienceLevel text).minimum = 0 →
        (extractExperienceLevel text).level = "Entry Level") ∧
    (10 ≤ (analyzeExperience text).years →
        (analyzeExperience text).level = "Lead/Principal") ∧
    (5 ≤ (analyzeExperience text).years ∧ (analyzeExperience text).years ≤ 9 →
        (analyzeExperience text).level = "Senior") ∧
    (2 ≤ (analyzeExperience text).years ∧ (analyzeExperience text).years ≤ 4 →
        (analyzeExperience text).level = "Intermediate") ∧
    ((analyzeExperience text).years ≤ 1 →
        (analyzeExperience text).level = "Entry Level") := by
  have hj : (extractExperienceLevel text).level =
      jobLevelOfYears (extractExperienceLevel text).minimum := rfl
  have hr : (analyzeExperience text).level =
      resumeLevelOfYears (analyzeExperience text).years := rfl
  obtain ⟨j1, j2, j3, j4, j5⟩ :=
    jobLevelOfYears_spec (extractExperienceLevel text).minimum
  obtain ⟨r1, r2, r3, r4⟩ :=
    resumeLevelOfYears_spec (analyzeExperience text).years
  rw [hj, hr]
  exact ⟨j1, j2, j3, j4, j5, r1, r2, r3, r4⟩

/-- Concrete instantiation of the amended C4 boundaries: a job text with
9 minimum years is "Senior/Lead", a resume text with 3 years is
"Intermediate". -/
theorem C4_experience_level_boundaries_witness :
    (extractExperienceLevel "9+ years experience").level = "Senior/Lead" ∧
      (analyzeExperience "3 years as developer").level = "Intermediate" :=
  ⟨(C4_experience_level_boundaries "9+ years experience").1 (by decide),
   (C4_experience_level_boundaries "3 years as developer").2.2.2.2.2.2.2.1
     (by decide)⟩

/-- Elements already accumulated survive the dedup-append loop. -/
lemma mem_foldl_appendUnseen (qs : List InterviewQuestion) :
    ∀ acc x, x ∈ acc → x ∈ qs.foldl appendUnseen acc := by
  induction qs with
  | nil => intro acc x hx; exact hx
  | cons a qs ih =>
    intro acc x hx
    apply ih
    unfold appendUnseen
    split
    · exact hx
    · exact List.mem_append_left _ hx

/-- Every processed question's text appears in the loop's output. -/
lemma text_mem_foldl_appendUnseen (qs : List InterviewQuestion) :
    ∀ acc q, q ∈ qs →
      ∃ q', q' ∈ qs.foldl appendUnseen acc ∧ q'.question = q.question := by
  induction qs with
  | nil => intro acc q hq; cases hq
  | cons a qs ih =>
    intro acc q hq
    rcases List.mem_cons.mp hq with rfl | hq'
    · cases hha : acc.any (fun d => d.question == q.question) with
      | true =>
        obtain ⟨d, hd, hdq⟩ := List.any_eq_true.mp hha
        refine ⟨d, ?_, beq_iff_eq.mp hdq⟩
        have hstep : appendUnseen acc q = acc := by
          simp [appendUnseen, hha]
        rw [List.foldl_cons, hstep]
        exact mem_foldl_appendUnseen qs acc d hd
      | false =>
        refine ⟨q, ?_, rfl⟩
        have hstep : appendUnseen acc q = acc ++ [q] := by
          simp [appendUnseen, hha]
        rw [List.foldl_cons, hstep]
        exact mem_foldl_appendUnseen qs (acc ++ [q]) q
          (List.mem_append_right _ (List.mem_singleton.mpr rfl))
    · exact ih (appendUnseen acc a) q hq'

/-- The dedup-append loop preserves distinctness of question texts. -/
lemma nodup_foldl_appendUnseen (qs : List InterviewQuestion) :
    ∀ acc, (qTexts acc).Nodup → (qTexts (qs.foldl appendUnseen acc)).Nodup := by
  induction qs with
  | nil => intro acc h; exact h
  | cons a qs ih =>
    intro acc h
    rw [List.foldl_cons]
    apply ih
    cases hha : acc.any (fun d => d.question == a.question) with
    | true =>
      have hstep : appendUnseen acc a = acc := by simp [appendUnseen, hha]
      rw [hstep]; exact h
    | false =>
      have hstep : appendUnseen acc a = acc ++ [a] := by
        simp [appendUnseen, hha]
      rw [hstep]
      unfold qTexts at h ⊢
      rw [List.map_append]
      refine List.Nodup.append h (by simp) ?_
      intro x hx hx'
      have hxa : x = a.question := by simpa using hx'
      obtain ⟨d, hd, hdx⟩ := List.mem_map.mp hx
      have hcontra : acc.any (fun d => d.question == a.question) = true :=
        List.any_eq_true.mpr ⟨d, hd, beq_iff_eq.mpr (hdx.trans hxa)⟩
      simp [hha] at hcontra

/-- A per-difficulty slice keeps distinct question texts. -/
lemma nodup_texts_difficultySlice (qs : List InterviewQuestion)
    (h : (qTexts qs).Nodup) (d : Difficulty) :
    (qTexts (difficultySlice qs d)).Nodup := by
  have hsub : List.Sublist (difficultySlice qs d) qs :=
    (List.take_sublist _ _).trans (List.filter_sublist qs)
  exact h.sublist (hsub.map _)

/-- Slices of different difficulties share no question text when the
input texts are pairwise distinct. -/
lemma texts_slices_disjoint (qs : List InterviewQuestion)
    (h : (qTexts qs).Nodup) {d1 d2 : Difficulty} (hne : d1 ≠ d2) :
    List.Disjoint (qTexts (difficultySlice qs d1))
      (qTexts (difficultySlice qs d2)) := by
  intro t ht1 ht2
  obtain ⟨a, ha, hat⟩ := List.mem_map.mp ht1
  obtain ⟨b, hb, hbt⟩ := List.mem_map.mp ht2
  have ha' := List.mem_filter.mp (List.mem_of_mem_take ha)
  have hb' := List.mem_filter.mp (List.mem_of_mem_take hb)
  have hab : a = b :=
    List.inj_on_of_nodup_map h ha'.1 hb'.1 (hat.trans hbt.symm)
  apply hne
  have hda : a.difficulty = d1 := beq_iff_eq.mp ha'.2
  have hdb : b.difficulty = d2 := beq_iff_eq.mp hb'.2
  rw [← hda, ← hdb, hab]

/-- The first phase of `diversifyQuestions` keeps distinct texts when
the input texts are pairwise distinct. -/
lemma nodup_texts_phase1 (qs : List InterviewQuestion)
    (h : (qTexts qs).Nodup) :
    (qTexts ((difficultySlice qs .easy ++ difficultySlice qs .medium) ++
      difficultySlice qs .hard)).Nodup := by
  unfold qTexts
  rw [List.map_append, List.map_append]
  refine List.Nodup.append
    (List.Nodup.append (nodup_texts_difficultySlice qs h .easy)
      (nodup_texts_difficultySlice qs h .medium)
      (texts_slices_disjoint qs h (by decide)))
    (nodup_texts_difficultySlice qs h .hard) ?_
  intro x hx hxh
  rcases List.mem_append.mp hx with hxe | hxm
  · exact texts_slices_disjoint qs h (by decide) hxe hxh
  · exact texts_slices_disjoint qs h (by decide) hxm hxh

/-- Claim C5, counterexample: on sixteen easy questions whose first two
share a text, `diversifyQuestions` itself returns 16 questions (more
than 15) containing a duplicated question text — the 15-truncation
happens at the call site, and the per-difficulty slices are not
de-duplicated. -/
theorem C5_counterexample :
    ¬ ((diversifyQuestions sixteenEasy).length ≤ 15 ∧
        (qTexts (diversifyQuestions sixteenEasy)).Nodup) := by
  decide

/-- Claim C5 as amended: `diversifyQuestions` never drops a question
already included — every input question's text appears in the output —
and keeps question texts duplicate-free whenever the input texts are
pairwise distinct; the at-most-15 bound holds of the question list
returned by `getInterviewPreparation`, which truncates the diversified
list to 15 at the call site. -/
theorem C5_diversify_dedup_truncation (qs : List InterviewQuestion) :
    (∀ q ∈ qs, ∃ q', q' ∈ diversifyQuestions qs ∧
        q'.question = q.question) ∧
      ((qTexts qs).Nodup → (qTexts (diversifyQuestions qs)).Nodup) ∧
      (preparationQuestions qs).length ≤ 15 := by
  have hdiv : diversifyQuestions qs =
      qs.foldl appendUnseen
        ((difficultySlice qs .easy ++ difficultySlice qs .medium) ++
          difficultySlice qs .hard) := rfl
  refine ⟨?_, ?_, ?_⟩
  · intro q hq
    rw [hdiv]
    exact text_mem_foldl_appendUnseen qs _ q hq
  · intro h
    rw [hdiv]
    exact nodup_foldl_appendUnseen qs _ (nodup_texts_phase1 qs h)
  · exact List.length_take_le 15 _

/-- Concrete instantiation of the amended C5: a single question is kept
and the output texts are duplicate-free. -/
theorem C5_diversify_dedup_truncation_witness :
    (∃ q', q' ∈ diversifyQuestions [mkEasyQ "alpha"] ∧
        q'.question = (mkEasyQ "alpha").question) ∧
      (qTexts (diversifyQuestions [mkEasyQ "alpha"])).Nodup :=
  ⟨(C5_diversify_dedup_truncation [mkEasyQ "alpha"]).1 (mkEasyQ "alpha")
      (List.mem_singleton.mpr rfl),
   (C5_diversify_dedup_truncation [mkEasyQ "alpha"]).2.1 (by decide)⟩

/-- The overall resume score always lands in `[0,100]`. -/
lemma overallScore_mem (sections : SectionsAnalysis)
    (skills : SkillsAnalysis) (experience : Experience)
    (sentiment : SentimentAnalysis) :
    0 ≤ calculateOverallScore sections skills experience sentiment ∧
      calculateOverallScore sections skills experience sentiment ≤ 100 := by
  have h0 : (0 : ℚ) ≤ ((sections.found.length : ℚ) / 8) * 40 := by positivity
  have h0k : (0 : ℚ) ≤ min (((skills.found.length : ℚ) / 10) * 30) 30 :=
    le_min (by positivity) (by norm_num)
  have h0e : (0 : ℚ) ≤ (if experience.years > 0 then (15 : ℚ) else 0) := by
    split_ifs <;> norm_num
  have h0s : (0 : ℚ) ≤
      (if sentiment.assessment = "positive" then (15 : ℚ)
        else if sentiment.assessment = "neutral" then 10 else 5) := by
    split_ifs <;> norm_num
  simp only [calculateOverallScore]
  apply jsRound_mem
  · exact le_min (by linarith) (by norm_num)
  · exact min_le_right _ _

/-- Claim C7: for every resume analysis (whose sentiment assessment is
one of positive/neutral/negative), `calculateOverallScore` equals the
rounded, 100-capped sum of the four spec components, and is an integer
in `[0,100]`. -/
theorem C7_overall_score (sections : SectionsAnalysis)
    (skills : SkillsAnalysis) (experience : Experience)
    (sentiment : SentimentAnalysis)
    (h : sentiment.assessment = "positive" ∨
      sentiment.assessment = "neutral" ∨
      sentiment.assessment = "negative") :
    calculateOverallScore sections skills experience sentiment =
      specOverallScore sections.found.length skills.found.length
        experience.years sentiment.assessment ∧
    0 ≤ calculateOverallScore sections skills experience sentiment ∧
    calculateOverallScore sections skills experience sentiment ≤ 100 := by
  have hsec : ((sections.found.length : ℚ) / 8) * 40 =
      40 * ((sections.found.length : ℚ) / 8) := by ring
  have hsk : (((skills.found.length : ℚ) / 10) * 30) =
      (30 * (skills.found.length : ℚ)) / 10 := by ring
  have hsent :
      (if sentiment.assessment = "positive" then (15 : ℚ)
        else if sentiment.assessment = "neutral" then 10 else 5) =
      (if sentiment.assessment = "positive" then (15 : ℚ)
        else if sentiment.assessment = "negative" then 5 else 10) := by
    rcases h with h | h | h <;> rw [h] <;> decide
  refine ⟨?_, ?_⟩
  · simp only [calculateOverallScore, specOverallScore]
    rw [hsec, hsk, hsent]
  · exact overallScore_mem sections skills experience sentiment

/-- Concrete instantiation of C7: one found section, one skill, two
years, neutral sentiment. -/
theorem C7_overall_score_witness :
    calculateOverallScore ⟨["skills"], [], []⟩ ⟨["python"], [], []⟩
        ⟨2, "Intermediate"⟩ ⟨0, "neutral", "ok"⟩ =
      specOverallScore 1 1 2 "neutral" ∧
    0 ≤ calculateOverallScore ⟨["skills"], [], []⟩ ⟨["python"], [], []⟩
        ⟨2, "Intermediate"⟩ ⟨0, "neutral", "ok"⟩ ∧
    calculateOverallScore ⟨["skills"], [], []⟩ ⟨["python"], [], []⟩
        ⟨2, "Intermediate"⟩ ⟨0, "neutral", "ok"⟩ ≤ 100 :=
  C7_overall_score _ _ _ _ (Or.inr (Or.inl rfl))

/-- Membership in the first-occurrence de-duplication. -/
lemma mem_dedupFirstAux (l : List String) :
    ∀ seen x, x ∈ dedupFirstAux seen l ↔ x ∈ l ∧ x ∉ seen := by
  induction l with
  | nil => intro seen x; simp [dedupFirstAux]
  | cons a l ih =>
    intro seen x
    unfold dedupFirstAux
    by_cases ha : a ∈ seen
    · rw [if_pos ha, ih]
      by_cases hxa : x = a
      · subst hxa; simp [ha]
      · simp [hxa]
    · rw [if_neg ha]
      by_cases hxa : x = a
      · subst hxa; simp [ha]
      · rw [List.mem_cons, List.mem_cons, ih]
        constructor
        · rintro (h | ⟨h1, h2⟩)
          · exact absurd h hxa
          · exact ⟨Or.inr h1, fun hs => h2 (List.mem_cons_of_mem _ hs)⟩
        · rintro ⟨h1, h2⟩
          rcases h1 with h | h
          · exact absurd h hxa
          · exact Or.inr ⟨h, fun hs => (List.mem_cons.mp hs).elim hxa h2⟩

lemma mem_dedupFirst (l : List String) (x : String) :
    x ∈ dedupFirst l ↔ x ∈ l := by
  unfold dedupFirst
  rw [mem_dedupFirstAux]
  simp

/-- The classification loop appends to the required bucket exactly the
skills whose window is required, and to the preferred bucket exactly
those whose window is preferred. -/
lemma classify_foldl (lt : String) (l : List String) :
    ∀ b : SkillBuckets,
      (l.foldl (classifyStep lt) b).required =
          b.required ++ l.filter (windowRequired lt) ∧
        (l.foldl (classifyStep lt) b).preferred =
          b.preferred ++ l.filter (windowPreferred lt) := by
  induction l with
  | nil => intro b; simp
  | cons a l ih =>
    intro b
    rw [List.foldl_cons]
    cases hctx : skillContext lt a with
    | none =>
      have hwr : windowRequired lt a = false := by
        simp [windowRequired, hctx]
      have hwp : windowPreferred lt a = false := by
        simp [windowPreferred, hctx]
      have hstep : classifyStep lt b a = b := by
        simp [classifyStep, hctx]
      constructor
      · rw [hstep, (ih b).1]
        simp [List.filter_cons, hwr]
      · rw [hstep, (ih b).2]
        simp [List.filter_cons, hwp]
    | some context =>
      by_cases hreq : requiredMarkers.any (fun m => includes context m) = true
      · have hwr : windowRequired lt a = true := by
          simp [windowRequired, hctx, hreq]
        have hwp : windowPreferred lt a = false := by
          simp [windowPreferred, hctx, hreq]
        have hstep : classifyStep lt b a =
            { required := b.required ++ [a], preferred := b.preferred } := by
          simp [classifyStep, hctx, hreq]
        constructor
        · rw [hstep, (ih _).1]
          simp [List.filter_cons, hwr]
        · rw [hstep, (ih _).2]
          simp [List.filter_cons, hwp]
      · have hreq' : requiredMarkers.any (fun m => includes context m) = false :=
          Bool.eq_false_iff.mpr hreq
        by_cases hpref : preferredMarkers.any (fun m => includes context m) = true
        · have hwr : windowRequired lt a = false := by
            simp [windowRequired, hctx, hreq', hpref]
          have hwp : windowPreferred lt a = true := by
            simp [windowPreferred, hctx, hreq', hpref]
          have hstep : classifyStep lt b a =
              { required := b.required, preferred := b.preferred ++ [a] } := by
            simp [classifyStep, hctx, hreq', hpref]
          constructor
          · rw [hstep, (ih _).1]
            simp [List.filter_cons, hwr]
          · rw [hstep, (ih _).2]
            simp [List.filter_cons, hwp]
        · have hpref' : preferredMarkers.any (fun m => includes context m) = false :=
            Bool.eq_false_iff.mpr hpref
          have hwr : windowRequired lt a = true := by
            simp [windowRequired, hctx, hreq', hpref']
          have hwp : windowPreferred lt a = false := by
            simp [windowPreferred, hctx, hreq', hpref']
          have hstep : classifyStep lt b a =
              { required := b.required ++ [a], preferred := b.preferred } := by
            simp [classifyStep, hctx, hreq', hpref']
          constructor
          · rw [hstep, (ih _).1]
            simp [List.filter_cons, hwr]
          · rw [hstep, (ih _).2]
            simp [List.filter_cons, hwp]

/-- A skill's window cannot be classified both required and preferred. -/
lemma window_buckets_incompatible (lt s : String) :
    ¬ (windowRequired lt s = true ∧ windowPreferred lt s = true) := by
  rintro ⟨h1, h2⟩
  unfold windowRequired at h1
  unfold windowPreferred at h2
  cases hctx : skillContext lt s with
  | none => rw [hctx] at h1; simp at h1
  | some context =>
    rw [hctx] at h1 h2
    simp only [Bool.or_eq_true, Bool.and_eq_true, Bool.not_eq_true'] at h1 h2
    obtain ⟨h2a, h2b⟩ := h2
    rcases h1 with h1 | h1
    · rw [h2a] at h1; simp at h1
    · rw [h1] at h2b; simp at h2b

/-- Claim C8: for every job text, the required bucket holds exactly the
extracted skills whose ±100-character lowercase window around the first
occurrence contains a required marker or no preferred marker (the
default-required policy), and the preferred bucket exactly those with a
preferred marker and no required marker — each bucket de-duplicated. -/
theorem C8_window_classification (jobText : String) :
    (JobDescriptionService.extractSkills jobText).required =
        dedupFirst ((NlpService.extractSkills jobText).filter
          (windowRequired (lower jobText))) ∧
      (JobDescriptionService.extractSkills jobText).preferred =
        dedupFirst ((NlpService.extractSkills jobText).filter
          (windowPreferred (lower jobText))) := by
  obtain ⟨hr, hp⟩ := classify_foldl (lower jobText)
    (NlpService.extractSkills jobText) ⟨[], []⟩
  simp only [JobDescriptionService.extractSkills]
  rw [hr, hp]
  simp

/-- Claim C10: the required and preferred skill lists of a job analysis
are disjoint — every extracted skill is assigned to exactly one bucket
by the context of its first occurrence. -/
theorem C10_buckets_disjoint (jobText : String) (s : String)
    (h : s ∈ (JobDescriptionService.extractSkills jobText).required) :
    s ∉ (JobDescriptionService.extractSkills jobText).preferred := by
  intro hmem
  obtain ⟨hr, hp⟩ := classify_foldl (lower jobText)
    (NlpService.extractSkills jobText) ⟨[], []⟩
  have h' : s ∈ dedupFirst ((NlpService.extractSkills jobText).filter
      (windowRequired (lower jobText))) := by
    simpa only [JobDescriptionService.extractSkills, hr, List.nil_append] using h
  have hmem' : s ∈ dedupFirst ((NlpService.extractSkills jobText).filter
      (windowPreferred (lower jobText))) := by
    simpa only [JobDescriptionService.extractSkills, hp, List.nil_append] using hmem
  rw [mem_dedupFirst, List.mem_filter] at h' hmem'
  exact window_buckets_incompatible (lower jobText) s ⟨h'.2, hmem'.2⟩

/-- Concrete instantiation of C10: in `"python required"` the skill
`python` lands in required and therefore not in preferred. -/
theorem C10_buckets_disjoint_witness :
    "python" ∉ (JobDescriptionService.extractSkills "python required").preferred :=
  C10_buckets_disjoint "python required" "python" (by decide)

/-- Claim C1: the claim fails on the code — the TfIdf accumulator is a
constructor-initialized field of the singleton service, so
`extractKeywords` is NOT independent of earlier invocations.  A fresh
accumulator on `"bravo bravo"` yields `["bravo"]`, but the same call
after an earlier invocation on `"alpha alpha"` yields `["alpha"]`:
`listTerms(0)` ranks the first document ever added, not the current
text. -/
theorem C1_accumulator_persists :
    freshExtractKeywords "bravo bravo" 10 = ["bravo"] ∧
      (NlpService.extractKeywords
        ((NlpService.extractKeywords ⟨[]⟩ "alpha alpha" 10).2)
        "bravo bravo" 10).1 = ["alpha"] := by
  constructor <;> rfl

/-- The sentiment bucket is always one of the three labels. -/
lemma analyzeSentiment_assessment (lex : String → ℚ) (text : String) :
    (NlpService.analyzeSentiment lex text).2 = "positive" ∨
      (NlpService.analyzeSentiment lex text).2 = "neutral" ∨
      (NlpService.analyzeSentiment lex text).2 = "negative" := by
  simp only [NlpService.analyzeSentiment]
  split_ifs <;> simp

/-- Claim C9: the three core operations are total over any non-empty
string input — modelled as total functions whose outputs are always
well-formed: the resume's overall score is in `[0,100]`, its sentiment
bucket is one of the three labels, the job analysis lists at most 8
responsibilities and 8 qualifications with no match score outside
comparison mode, and comparison always produces a match score in
`[0,100]`. -/
theorem C9_core_operations_total (lex : String → ℚ) (st : NlpState)
    (resumeText jobText : String) (hr : resumeText ≠ "")
    (hj : jobText ≠ "") :
    (0 ≤ (ResumeService.analyzeResume lex st resumeText).1.overallScore ∧
      (ResumeService.analyzeResume lex st resumeText).1.overallScore ≤ 100) ∧
    ((ResumeService.analyzeResume lex st resumeText).1.sentiment.assessment
        = "positive" ∨
      (ResumeService.analyzeResume lex st resumeText).1.sentiment.assessment
        = "neutral" ∨
      (ResumeService.analyzeResume lex st resumeText).1.sentiment.assessment
        = "negative") ∧
    (JobDescriptionService.analyzeJobDescription st jobText).1.responsibilities.length ≤ 8 ∧
    (JobDescriptionService.analyzeJobDescription st jobText).1.qualifications.length ≤ 8 ∧
    (JobDescriptionService.analyzeJobDescription st jobText).1.matchScore = none ∧
    (∃ m, (JobDescriptionService.compareResumeWithJob st resumeText jobText).1.matchScore
        = some m ∧ 0 ≤ m ∧ m ≤ 100) := by
  refine ⟨?_, ?_, ?_, ?_, rfl, ?_⟩
  · have h : (ResumeService.analyzeResume lex st resumeText).1.overallScore =
        calculateOverallScore (ResumeService.analyzeSections resumeText)
          (ResumeService.analyzeSkills resumeText)
          (analyzeExperience resumeText)
          (ResumeService.analyzeSentiment lex resumeText) := rfl
    rw [h]
    exact overallScore_mem _ _ _ _
  · have h : (ResumeService.analyzeResume lex st resumeText).1.sentiment.assessment =
        (NlpService.analyzeSentiment lex resumeText).2 := rfl
    rw [h]
    exact analyzeSentiment_assessment lex resumeText
  · have h : (JobDescriptionService.analyzeJobDescription st jobText).1.responsibilities =
        extractResponsibilities jobText := rfl
    rw [h]
    exact List.length_take_le 8 _
  · have h : (JobDescriptionService.analyzeJobDescription st jobText).1.qualifications =
        extractQualifications jobText := rfl
    rw [h]
    exact List.length_take_le 8 _
  · refine ⟨calculateMatchScore (NlpService.extractSkills resumeText)
        (JobDescriptionService.extractSkills jobText).required
        (JobDescriptionService.extractSkills jobText).preferred, rfl, ?_⟩
    exact matchScore_mem _ _ _

/-- Concrete instantiation of C9 on short degenerate texts. -/
theorem C9_core_operations_total_witness :
    (0 ≤ (ResumeService.analyzeResume (fun _ => 0) ⟨[]⟩ "x").1.overallScore ∧
      (ResumeService.analyzeResume (fun _ => 0) ⟨[]⟩ "x").1.overallScore ≤ 100) ∧
    ((ResumeService.analyzeResume (fun _ => 0) ⟨[]⟩ "x").1.sentiment.assessment
        = "positive" ∨
      (ResumeService.analyzeResume (fun _ => 0) ⟨[]⟩ "x").1.sentiment.assessment
        = "neutral" ∨
      (ResumeService.analyzeResume (fun _ => 0) ⟨[]⟩ "x").1.sentiment.assessment
        = "negative") ∧
    (JobDescriptionService.analyzeJobDescription ⟨[]⟩ "y").1.responsibilities.length ≤ 8 ∧
    (JobDescriptionService.analyzeJobDescription ⟨[]⟩ "y").1.qualifications.length ≤ 8 ∧
    (JobDescriptionService.analyzeJobDescription ⟨[]⟩ "y").1.matchScore = none ∧
    (∃ m, (JobDescriptionService.compareResumeWithJob ⟨[]⟩ "x" "y").1.matchScore
        = some m ∧ 0 ≤ m ∧ m ≤ 100) :=
  C9_core_operations_total (fun _ => 0) ⟨[]⟩ "x" "y" (by decide) (by decide)

end ResChecker
